import Mathlib

/-!
Shallow embedding of `pkg/util/kubernetes/apiserver/leaderelection/leaderelection.go`
from the datadog-agent repository.

Durations are modelled as Go `time.Duration` values: integers counting
nanoseconds. Where the source performs an `int64` multiplication that can
wrap (`time.Duration(leaseDuration) * time.Second`), the model reduces the
product with `wrap64` into the two's-complement range. External effects
(host-name lookup, configuration reads, the Kubernetes API client, the
asynchronous leader-elector callback that writes `currentHolderIdentity`)
are modelled as explicit environment parameters: the embedded functions are
deterministic in the engine state plus the environment.
-/

namespace LeaderElection

/-- Reduction of an unbounded integer to its Go `int64` (two's-complement)
representative in `[-2^63, 2^63)`, as wrapping `int64` arithmetic produces. -/
def wrap64 (n : Int) : Int := (n + 2 ^ 63) % 2 ^ 64 - 2 ^ 63

/-- One second, in nanoseconds (Go `time.Second`). -/
def second : Int := 1000000000

/-- One millisecond, in nanoseconds (Go `time.Millisecond`). -/
def millisecond : Int := 1000000

/-- `defaultLeaderLeaseDuration = 60 * time.Second`. -/
def defaultLeaderLeaseDuration : Int := 60 * second

/-- `defaultLeaseName = "datadog-leader-election"`. -/
def defaultLeaseName : String := "datadog-leader-election"

/-- `clientTimeout = 2 * time.Second`. -/
def clientTimeout : Int := 2 * second

/-- `timeoutDuration := clientTimeout * 2` in `EnsureLeaderElectionRuns`. -/
def timeoutDuration : Int := clientTimeout * 2

/-- The ticker interval `time.Millisecond * 500` in `EnsureLeaderElectionRuns`. -/
def tickInterval : Int := millisecond * 500

/-- A Go `error` value from the Kubernetes client world. The `isNotFound` flag
models what `errors.IsNotFound` returns on it. -/
structure KubeError where
  msg : String
  isNotFound : Bool
deriving DecidableEq

/-- The `LeaderEngine` struct. `onceDone` models whether the `sync.Once` field
`once` has fired; `hasLeaderElector` models `leaderElector != nil`. The two
mutexes guard fields but carry no state of their own and are not modelled. -/
structure LeaderEngine where
  running : Bool
  onceDone : Bool
  HolderIdentity : String
  LeaseDuration : Int
  LeaseName : String
  LeaderNamespace : String
  hasLeaderElector : Bool
  currentHolderIdentity : String
deriving DecidableEq

/-- `newLeaderEngine()`: zero value of the struct except `LeaseName` and
`LeaderNamespace` (the latter from `apiserver.GetResourcesNamespace()`,
passed in as `ns`). -/
def newLeaderEngine (ns : String) : LeaderEngine :=
  { running := false
    onceDone := false
    HolderIdentity := ""
    LeaseDuration := 0
    LeaseName := defaultLeaseName
    LeaderNamespace := ns
    hasLeaderElector := false
    currentHolderIdentity := "" }

/-- `CurrentLeaderName()`: returns `currentHolderIdentity` under the read
lock. Total: it never returns an error. -/
def LeaderEngine.CurrentLeaderName (le : LeaderEngine) : String :=
  le.currentHolderIdentity

/-- `IsLeader()`: `le.CurrentLeaderName() == le.HolderIdentity`. -/
def LeaderEngine.IsLeader (le : LeaderEngine) : Bool :=
  le.CurrentLeaderName == le.HolderIdentity

/-- The callback path by which the leader elector updates
`currentHolderIdentity` (the sole writer of that field). -/
def LeaderEngine.setCurrentHolder (le : LeaderEngine) (identity : String) :
    LeaderEngine :=
  { le with currentHolderIdentity := identity }

/-- The error message built by `fmt.Errorf` on timeout;
`timeoutDuration.String()` renders `4 * time.Second` as `"4s"`. -/
def timeoutErrMsg : String :=
  "leader election still not running, timeout after 4s"

/-- The `for`/`select` polling loop of `EnsureLeaderElectionRuns`. `obs` is
the sequence of values that `le.CurrentLeaderName()` returns at the
successive 500ms ticks (the field is written concurrently by the elector
callback); an exhausted list means the `timeout` channel fired first. On the
first non-empty observation the loop sets `running = true` and returns `nil`
(modelled as `none`). -/
def ensurePoll : LeaderEngine → List String → LeaderEngine × Option String
  | le, [] => (le, some timeoutErrMsg)
  | le, leaderIdentity :: rest =>
    if leaderIdentity ≠ "" then ({ le with running := true }, none)
    else ensurePoll le rest

/-- `EnsureLeaderElectionRuns()`. Returns the new engine state, whether this
call executed the body of the `once.Do` guard (the `go le.leaderElector.Run()`
launch), and the returned error (`none` = `nil`). -/
def LeaderEngine.EnsureLeaderElectionRuns (le : LeaderEngine)
    (obs : List String) : LeaderEngine × Bool × Option String :=
  if le.running then (le, false, none)
  else
    let launched := !le.onceDone
    let le1 := { le with onceDone := true }
    let r := ensurePoll le1 obs
    (r.1, launched, r.2)

/-- A sequence of `EnsureLeaderElectionRuns` calls on the same engine, each
with its own environment of tick observations; returns the final state and
the total number of calls that executed the launch inside the run-once
guard. -/
def runEnsureCalls : LeaderEngine → List (List String) → LeaderEngine × Nat
  | le, [] => (le, 0)
  | le, obs :: rest =>
    ((runEnsureCalls (le.EnsureLeaderElectionRuns obs).1 rest).1,
      (if (le.EnsureLeaderElectionRuns obs).2.1 then 1 else 0) +
        (runEnsureCalls (le.EnsureLeaderElectionRuns obs).1 rest).2)

/-- The environment of one `init` attempt: the results of `os.Hostname()`,
`config.Datadog.GetInt("leader_lease_duration")` (seconds),
`apiserver.GetAPIClient()`, the ConfigMap existence probe `Get`, and
`le.newElection(...)`. -/
structure InitEnv where
  hostname : Except KubeError String
  leaderLeaseDurationCfg : Int
  apiClient : Except KubeError Unit
  configMapGet : Except KubeError Unit
  newElection : Except KubeError Unit

/-- The first step of `init`: resolve an empty `HolderIdentity` to
`os.Hostname()`, failing the attempt if the lookup fails. -/
def resolveIdentity (le : LeaderEngine) (env : InitEnv) :
    Except KubeError LeaderEngine :=
  if le.HolderIdentity = "" then
    match env.hostname with
    | .error e => .error e
    | .ok h => .ok { le with HolderIdentity := h }
  else .ok le

/-- The tail of `init` after the ConfigMap probe: construct the leader
elector via `newElection`. -/
def buildElector (le : LeaderEngine) (env : InitEnv) :
    Except KubeError LeaderEngine :=
  match env.newElection with
  | .error e => .error e
  | .ok _ => .ok { le with hasLeaderElector := true }

/-- The two lease-duration statements of `init`: a nonzero configured
`leader_lease_duration` (in seconds) overrides the current value with the
wrapping `int64` product `time.Duration(cfg) * time.Second` (reduced by
`wrap64`), and a zero resulting `LeaseDuration` is then replaced by the 60s
default. -/
def fixLease (le : LeaderEngine) (cfg : Int) : LeaderEngine :=
  let le2 :=
    if cfg ≠ 0 then { le with LeaseDuration := wrap64 (cfg * second) } else le
  if le2.LeaseDuration = 0 then
    { le2 with LeaseDuration := defaultLeaderLeaseDuration }
  else le2

/-- `(le *LeaderEngine) init()`: resolve the identity, apply the configured
lease duration if nonzero, default a zero lease duration to 60s, obtain the
API client, probe the ConfigMap tolerating only not-found errors, then build
the elector. On failure the model returns only the error and drops the
partial in-place field writes; no claim depends on the state of a failed
attempt. -/
def LeaderEngine.init (le : LeaderEngine) (env : InitEnv) :
    Except KubeError LeaderEngine :=
  match resolveIdentity le env with
  | .error e => .error e
  | .ok le1 =>
    match env.apiClient with
    | .error e => .error e
    | .ok _ =>
      match env.configMapGet with
      | .error e =>
        if e.isNotFound then
          buildElector (fixLease le1 env.leaderLeaseDurationCfg) env
        else .error e
      | .ok _ => buildElector (fixLease le1 env.leaderLeaseDurationCfg) env

/-- The engine that `GetCustomLeaderEngine` passes to `TriggerRetry`: the
existing singleton, or a freshly constructed one carrying the supplied
identity and ttl. -/
def resolveEngine (g : Option LeaderEngine) (ns holderIdentity : String)
    (ttl : Int) : LeaderEngine :=
  match g with
  | some le => le
  | none =>
    { newLeaderEngine ns with HolderIdentity := holderIdentity
                              LeaseDuration := ttl }

/-- `GetCustomLeaderEngine(holderIdentity, ttl)`. The global
`globalLeaderEngine` is passed in and returned explicitly as `g`.
`trigger` models `initRetry.TriggerRetry()`: it may mutate the engine (the
retrier invokes `init` while attempts remain) and reports `none` on success.
A result of `.error e` models `return nil, err`; `.ok le` models returning
the (non-nil) engine. -/
def GetCustomLeaderEngine (g : Option LeaderEngine) (ns holderIdentity : String)
    (ttl : Int) (trigger : LeaderEngine → LeaderEngine × Option KubeError) :
    Option LeaderEngine × Except KubeError LeaderEngine :=
  let le := resolveEngine g ns holderIdentity ttl
  let r := trigger le
  match r.2 with
  | some e => (some r.1, .error e)
  | none => (some r.1, .ok r.1)

/-- `GetLeaderEngine()`: `GetCustomLeaderEngine("", defaultLeaderLeaseDuration)`. -/
def GetLeaderEngine (g : Option LeaderEngine) (ns : String)
    (trigger : LeaderEngine → LeaderEngine × Option KubeError) :
    Option LeaderEngine × Except KubeError LeaderEngine :=
  GetCustomLeaderEngine g ns "" defaultLeaderLeaseDuration trigger

/-- The decoded `rl.LeaderElectionRecord` payload. -/
structure LeaderElectionRecord where
  holderIdentity : String
  leaseDurationSeconds : Int
  leaderTransitions : Int
deriving DecidableEq

/-- The ConfigMap as `GetLeaderDetails` uses it: its annotation map. -/
structure ConfigMap where
  Annotations : List (String × String)
deriving DecidableEq

/-- `rl.LeaderElectionRecordAnnotationKey`. -/
def leaderElectionRecordAnnotationKey : String :=
  "control-plane.alpha.kubernetes.io/leader"

/-- The distinct error kinds `GetLeaderDetails` can return: the
`GetAPIClient` error, the ConfigMap `Get` error, `apiserver.ErrNotFound`
for a missing annotation, and the `json.Unmarshal` error. -/
inductive LeaderDetailsError where
  | clientError (e : KubeError)
  | getError (e : KubeError)
  | errNotFound
  | decodeError (msg : String)
deriving DecidableEq

/-- The environment of `GetLeaderDetails`: the API-client lookup, the
ConfigMap fetch, and the behaviour of `json.Unmarshal` on each payload. -/
structure LeaderDetailsEnv where
  apiClient : Except KubeError Unit
  getConfigMap : Except KubeError ConfigMap
  unmarshal : String → Except String LeaderElectionRecord

/-- `GetLeaderDetails()`: fetch the ConfigMap, extract the leader-election
annotation (missing ⇒ `apiserver.ErrNotFound`), decode its JSON payload.
No internal retry on any path. -/
def GetLeaderDetails (env : LeaderDetailsEnv) :
    Except LeaderDetailsError LeaderElectionRecord :=
  match env.apiClient with
  | .error e => .error (.clientError e)
  | .ok _ =>
    match env.getConfigMap with
    | .error e => .error (.getError e)
    | .ok cm =>
      match List.lookup leaderElectionRecordAnnotationKey cm.Annotations with
      | none => .error .errNotFound
      | some payload =>
        match env.unmarshal payload with
        | .error m => .error (.decodeError m)
        | .ok led => .ok led

/-! Concrete instances used to exercise the definitions. -/

/-- A fresh engine as produced by `newLeaderEngine` in the `default`
namespace. -/
def engineFresh : LeaderEngine := newLeaderEngine "default"

/-- An initialized but not yet running engine for candidate `pod-a`. -/
def engineA : LeaderEngine :=
  { engineFresh with HolderIdentity := "pod-a", hasLeaderElector := true }

/-- The state `engineFresh` reaches after a successful `init` in an
environment with host name `host-1` and no configured lease duration. -/
def engineHost : LeaderEngine :=
  { engineFresh with HolderIdentity := "host-1"
                     LeaseDuration := defaultLeaderLeaseDuration
                     hasLeaderElector := true }

/-- A `TriggerRetry` model for an initialization that has already succeeded:
the memoized retrier leaves the engine untouched and reports success. -/
def trigger0 : LeaderEngine → LeaderEngine × Option KubeError :=
  fun le => (le, none)

/-- An `init` environment in which every external call succeeds and no lease
duration is configured. -/
def envOk : InitEnv :=
  { hostname := .ok "host-1"
    leaderLeaseDurationCfg := 0
    apiClient := .ok ()
    configMapGet := .error { msg := "configmaps not found", isNotFound := true }
    newElection := .ok () }

/-- `envOk` with a configured lease duration of 30 seconds, whose `int64`
product with `time.Second` stays in range. -/
def envCfg : InitEnv := { envOk with leaderLeaseDurationCfg := 30 }

/-- `envOk` with the configured lease duration `2^55`, a valid Go `int`
whose `int64` product with `time.Second` (`2^55 * 10^9 = 2^64 * 5^9`) wraps
to exactly zero. -/
def envWrap : InitEnv :=
  { envOk with leaderLeaseDurationCfg := 36028797018963968 }

/-- The state `engineFresh` reaches after a successful `init` in `envCfg`:
the 30s configured duration lands unwrapped. -/
def engineCfg : LeaderEngine :=
  { engineFresh with HolderIdentity := "host-1"
                     LeaseDuration := 30000000000
                     hasLeaderElector := true }

/-- A ConfigMap carrying the leader-election annotation. -/
def cmLeader : ConfigMap :=
  { Annotations := [(leaderElectionRecordAnnotationKey, "payload-1")] }

/-- A decoded leader-election record. -/
def recLeader : LeaderElectionRecord :=
  { holderIdentity := "pod-a", leaseDurationSeconds := 60, leaderTransitions := 3 }

/-- A `GetLeaderDetails` environment whose fetch succeeds and whose decoder
accepts exactly the payload stored in `cmLeader`. -/
def envDetails : LeaderDetailsEnv :=
  { apiClient := .ok ()
    getConfigMap := .ok cmLeader
    unmarshal := fun s =>
      if s = "payload-1" then .ok recLeader else .error "invalid character" }

/-! Helper lemmas. -/

theorem ensure_fast (le : LeaderEngine) (obs : List String)
    (h : le.running = true) :
    le.EnsureLeaderElectionRuns obs = (le, false, none) := by
  simp [LeaderEngine.EnsureLeaderElectionRuns, h]

theorem ensure_slow (le : LeaderEngine) (obs : List String)
    (h : le.running = false) :
    le.EnsureLeaderElectionRuns obs =
      ((ensurePoll { le with onceDone := true } obs).1, !le.onceDone,
        (ensurePoll { le with onceDone := true } obs).2) := by
  simp [LeaderEngine.EnsureLeaderElectionRuns, h]

theorem ensurePoll_cases (le : LeaderEngine) (obs : List String) :
    (ensurePoll le obs = (le, some timeoutErrMsg) ∧ ∀ x ∈ obs, x = "") ∨
      (ensurePoll le obs = ({ le with running := true }, none) ∧
        ∃ x ∈ obs, x ≠ "") := by
  induction obs with
  | nil => exact Or.inl ⟨rfl, by simp⟩
  | cons x xs ih =>
    by_cases hx : x = ""
    · subst hx
      have hstep : ensurePoll le ("" :: xs) = ensurePoll le xs := by
        simp [ensurePoll]
      rcases ih with ⟨h1, h2⟩ | ⟨h1, h2⟩
      · refine Or.inl ⟨hstep.trans h1, ?_⟩
        intro y hy
        rcases List.mem_cons.mp hy with rfl | hy2
        · rfl
        · exact h2 y hy2
      · refine Or.inr ⟨hstep.trans h1, ?_⟩
        rcases h2 with ⟨y, hy, hne⟩
        exact ⟨y, List.mem_cons_of_mem _ hy, hne⟩
    · refine Or.inr ⟨?_, ⟨x, List.mem_cons_self _ _, hx⟩⟩
      simp [ensurePoll, hx]

theorem ensurePoll_timeout (le : LeaderEngine) (obs : List String)
    (h : ∀ x ∈ obs, x = "") :
    ensurePoll le obs = (le, some timeoutErrMsg) := by
  rcases ensurePoll_cases le obs with ⟨h1, _⟩ | ⟨_, y, hy, hne⟩
  · exact h1
  · exact absurd (h y hy) hne

theorem ensurePoll_fst_onceDone (le : LeaderEngine) (obs : List String) :
    (ensurePoll le obs).1.onceDone = le.onceDone := by
  rcases ensurePoll_cases le obs with ⟨h1, _⟩ | ⟨h1, _⟩ <;> rw [h1]

theorem runEnsureCalls_running (le : LeaderEngine) (envs : List (List String))
    (h : le.running = true) : runEnsureCalls le envs = (le, 0) := by
  induction envs with
  | nil => rfl
  | cons obs rest ih =>
    simp only [runEnsureCalls]
    rw [ensure_fast le obs h]
    simp [ih]

theorem runEnsureCalls_onceDone (le : LeaderEngine)
    (envs : List (List String)) (h : le.onceDone = true) :
    (runEnsureCalls le envs).2 = 0 := by
  induction envs generalizing le with
  | nil => rfl
  | cons obs rest ih =>
    have hl : (le.EnsureLeaderElectionRuns obs).2.1 = false := by
      cases hrun : le.running with
      | true => rw [ensure_fast le obs hrun]
      | false =>
        rw [ensure_slow le obs hrun]
        simp [h]
    have hd : (le.EnsureLeaderElectionRuns obs).1.onceDone = true := by
      cases hrun : le.running with
      | true => rw [ensure_fast le obs hrun]; exact h
      | false =>
        rw [ensure_slow le obs hrun]
        rw [show ((ensurePoll { le with onceDone := true } obs).1,
          !le.onceDone,
          (ensurePoll { le with onceDone := true } obs).2).1 =
            (ensurePoll { le with onceDone := true } obs).1 from rfl]
        rw [ensurePoll_fst_onceDone]
    simp only [runEnsureCalls, hl]
    simp [ih _ hd]

/-! Claim theorems. -/

/-- C1: across any sequence of `EnsureLeaderElectionRuns` calls on the same
engine (including calls made after an earlier call returned the timeout
error), the launch inside the run-once guard executes at most once; it
executes on the first call that reaches the slow path, and starting from a
not-running engine with an unfired guard the total launch count over a
nonempty call sequence is exactly 1. -/
theorem ensure_launch_once (le : LeaderEngine) (envs : List (List String))
    (obs : List String) (h : le.onceDone = false) :
    (runEnsureCalls le envs).2 ≤ 1 ∧
      (le.running = false → (le.EnsureLeaderElectionRuns obs).2.1 = true) ∧
      (le.running = false → envs ≠ [] → (runEnsureCalls le envs).2 = 1) := by
  have hcount : ∀ envs2 : List (List String), le.running = false →
      envs2 ≠ [] → (runEnsureCalls le envs2).2 = 1 := by
    intro envs2 hrun hne
    cases envs2 with
    | nil => exact absurd rfl hne
    | cons o rest =>
      have hl : (le.EnsureLeaderElectionRuns o).2.1 = true := by
        rw [ensure_slow le o hrun]
        simp [h]
      have hd : (le.EnsureLeaderElectionRuns o).1.onceDone = true := by
        rw [ensure_slow le o hrun]
        rw [show ((ensurePoll { le with onceDone := true } o).1,
          !le.onceDone,
          (ensurePoll { le with onceDone := true } o).2).1 =
            (ensurePoll { le with onceDone := true } o).1 from rfl]
        rw [ensurePoll_fst_onceDone]
      simp only [runEnsureCalls, hl]
      simp [runEnsureCalls_onceDone _ rest hd]
  refine ⟨?_, fun hrun => ?_, hcount envs⟩
  · cases hrun : le.running with
    | true => simp [runEnsureCalls_running le envs hrun]
    | false =>
      cases envs with
      | nil => simp [runEnsureCalls]
      | cons o rest =>
        rw [hcount (o :: rest) hrun (by simp)]
  · rw [ensure_slow le obs hrun]
    simp [h]

/-- Witness for C1 at the concrete engine `engineA`: two calls, the first
timing out, launch exactly once and the first call does launch. -/
theorem ensure_launch_once_witness :
    (runEnsureCalls engineA [[""], ["pod-b"]]).2 = 1 ∧
      (engineA.EnsureLeaderElectionRuns [""]).2.1 = true :=
  ⟨(ensure_launch_once engineA [[""], ["pod-b"]] [""] rfl).2.2 rfl (by simp),
    (ensure_launch_once engineA [[""], ["pod-b"]] [""] rfl).2.1 rfl⟩

/-- C2: `EnsureLeaderElectionRuns` returns nil in exactly two cases: with
`running` already true it returns nil at once without launching or polling;
otherwise it polls (every 500ms for up to `timeoutDuration = 2 *
clientTimeout = 4s`) and returns nil exactly when some tick observes a
non-empty `currentHolderIdentity`, setting `running` to true then. -/
theorem ensure_success_characterization (le : LeaderEngine)
    (obs : List String) :
    (le.running = true → le.EnsureLeaderElectionRuns obs = (le, false, none)) ∧
      (le.running = false →
        (((le.EnsureLeaderElectionRuns obs).2.2 = none) ↔
          ∃ x ∈ obs, x ≠ "") ∧
        ((le.EnsureLeaderElectionRuns obs).2.2 = none →
          (le.EnsureLeaderElectionRuns obs).1.running = true)) ∧
      timeoutDuration = 2 * clientTimeout ∧ clientTimeout = 2 * second ∧
      timeoutDuration = 4 * second ∧ tickInterval = 500 * millisecond := by
  refine ⟨fun h => ensure_fast le obs h, fun h => ?_, by decide, by decide,
    by decide, by decide⟩
  rw [ensure_slow le obs h]
  rcases ensurePoll_cases { le with onceDone := true } obs with
    ⟨h1, hall⟩ | ⟨h1, hex⟩
  · rw [h1]
    constructor
    · constructor
      · intro hc
        exact absurd hc (by simp)
      · rintro ⟨y, hy, hne⟩
        exact absurd (hall y hy) hne
    · intro hc
      exact absurd hc (by simp)
  · rw [h1]
    exact ⟨⟨fun _ => hex, fun _ => rfl⟩, fun _ => rfl⟩

/-- Witness for C2 at `engineA`: a non-empty observation at the second tick
yields a nil return and sets `running`. -/
theorem ensure_success_characterization_witness :
    (engineA.EnsureLeaderElectionRuns ["", "pod-b"]).1.running = true :=
  ((ensure_success_characterization engineA ["", "pod-b"]).2.1 rfl).2
    (((ensure_success_characterization engineA ["", "pod-b"]).2.1 rfl).1.mpr
      ⟨"pod-b", by simp, by decide⟩)

/-- C3 counterexample: the claim says a timed-out call leaves the engine
state unchanged, but on the first slow-path call the run-once guard fires,
so the returned state differs from the input state. -/
theorem ensure_timeout_state_changed :
    (engineA.EnsureLeaderElectionRuns [""]).2.2 = some timeoutErrMsg ∧
      ¬((engineA.EnsureLeaderElectionRuns [""]).1 = engineA) :=
  ⟨by decide, by decide⟩

/-- C3 (amended): if every observation in the window is empty,
`EnsureLeaderElectionRuns` returns the timeout error and leaves every field
unchanged except that the run-once guard is (now) fired; in particular
`running` stays false, so a subsequent call takes the slow path again. -/
theorem ensure_timeout_keeps_not_running (le : LeaderEngine)
    (obs : List String) (hrun : le.running = false)
    (hobs : ∀ x ∈ obs, x = "") :
    (le.EnsureLeaderElectionRuns obs).2.2 = some timeoutErrMsg ∧
      (le.EnsureLeaderElectionRuns obs).1 = { le with onceDone := true } ∧
      (le.EnsureLeaderElectionRuns obs).1.running = false := by
  rw [ensure_slow le obs hrun]
  rw [ensurePoll_timeout { le with onceDone := true } obs hobs]
  exact ⟨rfl, rfl, hrun⟩

/-- Witness for C3's amended theorem at `engineA`. -/
theorem ensure_timeout_keeps_not_running_witness :
    (engineA.EnsureLeaderElectionRuns ["", ""]).2.2 = some timeoutErrMsg ∧
      (engineA.EnsureLeaderElectionRuns ["", ""]).1 =
        { engineA with onceDone := true } ∧
      (engineA.EnsureLeaderElectionRuns ["", ""]).1.running = false :=
  ensure_timeout_keeps_not_running engineA ["", ""] rfl (by simp)

/-- C4: `CurrentLeaderName` is exactly the stored `currentHolderIdentity`
(and, being a total function into `String`, never errors), and `IsLeader`
is precisely the equality test between `CurrentLeaderName` and the engine's
`HolderIdentity`. -/
theorem currentLeaderName_isLeader_spec (le : LeaderEngine) :
    le.CurrentLeaderName = le.currentHolderIdentity ∧
      le.IsLeader = (le.CurrentLeaderName == le.HolderIdentity) :=
  ⟨rfl, rfl⟩

/-- C10: with an unresolved (empty) `HolderIdentity` and no holder observed
yet, `IsLeader` returns true, since `"" == ""`. -/
theorem isLeader_of_empty_identities (le : LeaderEngine)
    (h1 : le.HolderIdentity = "") (h2 : le.currentHolderIdentity = "") :
    le.IsLeader = true := by
  simp [LeaderEngine.IsLeader, LeaderEngine.CurrentLeaderName, h1, h2]

/-- Witness for C10 at the freshly constructed engine. -/
theorem isLeader_of_empty_identities_witness : engineFresh.IsLeader = true :=
  isLeader_of_empty_identities engineFresh rfl rfl

/-- C5: `GetCustomLeaderEngine` returns the non-nil engine exactly when the
retry trigger reports success; when the trigger reports an error, it
returns a nil engine together with that very error (modelled as the
`.error` branch). `GetLeaderEngine` is the same accessor at the default
arguments. -/
theorem getCustomLeaderEngine_spec (g : Option LeaderEngine)
    (ns hid : String) (ttl : Int)
    (trigger : LeaderEngine → LeaderEngine × Option KubeError) :
    (∀ e, (trigger (resolveEngine g ns hid ttl)).2 = some e →
      GetCustomLeaderEngine g ns hid ttl trigger =
        (some (trigger (resolveEngine g ns hid ttl)).1, .error e)) ∧
      ((trigger (resolveEngine g ns hid ttl)).2 = none →
        GetCustomLeaderEngine g ns hid ttl trigger =
          (some (trigger (resolveEngine g ns hid ttl)).1,
            .ok (trigger (resolveEngine g ns hid ttl)).1)) ∧
      GetLeaderEngine g ns trigger =
        GetCustomLeaderEngine g ns "" defaultLeaderLeaseDuration trigger := by
  refine ⟨fun e he => ?_, fun hn => ?_, rfl⟩
  · simp only [GetCustomLeaderEngine, he]
  · simp only [GetCustomLeaderEngine, hn]

/-- Witness for C5, on a fresh singleton with a succeeding trigger. -/
theorem getCustomLeaderEngine_spec_witness :
    GetCustomLeaderEngine none "default" "pod-a" 0 trigger0 =
      (some (trigger0 (resolveEngine none "default" "pod-a" 0)).1,
        .ok (trigger0 (resolveEngine none "default" "pod-a" 0)).1) :=
  (getCustomLeaderEngine_spec none "default" "pod-a" 0 trigger0).2.1 rfl

/-- C6: once the singleton exists, the accessor ignores the supplied
identity and ttl arguments entirely (the same result for any two argument
pairs); the stored engine after the call is exactly what the re-invoked
retry trigger made of it, and when the trigger is the state-preserving
no-op of an already-successful initialization, every field is unchanged
and the same instance is both stored and returned. -/
theorem getCustomLeaderEngine_existing (le : LeaderEngine)
    (ns hid1 hid2 : String) (ttl1 ttl2 : Int)
    (trigger : LeaderEngine → LeaderEngine × Option KubeError) :
    GetCustomLeaderEngine (some le) ns hid1 ttl1 trigger =
        GetCustomLeaderEngine (some le) ns hid2 ttl2 trigger ∧
      (GetCustomLeaderEngine (some le) ns hid1 ttl1 trigger).1 =
        some (trigger le).1 ∧
      ((∀ e2, (trigger e2).1 = e2) →
        (GetCustomLeaderEngine (some le) ns hid1 ttl1 trigger).1 = some le ∧
        ((trigger le).2 = none →
          GetCustomLeaderEngine (some le) ns hid1 ttl1 trigger =
            (some le, .ok le))) := by
  have hfst : (GetCustomLeaderEngine (some le) ns hid1 ttl1 trigger).1 =
      some (trigger le).1 := by
    cases h : (trigger le).2 with
    | none => simp only [GetCustomLeaderEngine, resolveEngine, h]
    | some e => simp only [GetCustomLeaderEngine, resolveEngine, h]
  refine ⟨rfl, hfst, fun htrig => ?_⟩
  refine ⟨by rw [hfst, htrig le], fun hn => ?_⟩
  simp only [GetCustomLeaderEngine, resolveEngine, hn, htrig le]

/-- Witness for C6 at `engineA` with two distinct argument pairs and the
no-op trigger. -/
theorem getCustomLeaderEngine_existing_witness :
    GetCustomLeaderEngine (some engineA) "default" "x" 5 trigger0 =
        GetCustomLeaderEngine (some engineA) "default" "y" 7 trigger0 ∧
      GetCustomLeaderEngine (some engineA) "default" "x" 5 trigger0 =
        (some engineA, .ok engineA) :=
  ⟨(getCustomLeaderEngine_existing engineA "default" "x" "y" 5 7 trigger0).1,
    ((getCustomLeaderEngine_existing engineA "default" "x" "y" 5 7
        trigger0).2.2 (fun _ => rfl)).2 rfl⟩

theorem resolveIdentity_lease (le : LeaderEngine) (env : InitEnv)
    (le1 : LeaderEngine) (h : resolveIdentity le env = .ok le1) :
    le1.LeaseDuration = le.LeaseDuration := by
  unfold resolveIdentity at h
  by_cases hid : le.HolderIdentity = ""
  · rw [if_pos hid] at h
    cases hh : env.hostname with
    | error e => rw [hh] at h; cases h
    | ok s => rw [hh] at h; cases h; rfl
  · rw [if_neg hid] at h; cases h; rfl

theorem resolveIdentity_empty_error (le : LeaderEngine) (env : InitEnv)
    (e : KubeError) (hid : le.HolderIdentity = "")
    (he : env.hostname = .error e) : resolveIdentity le env = .error e := by
  unfold resolveIdentity
  rw [if_pos hid, he]

theorem resolveIdentity_empty_ok (le : LeaderEngine) (env : InitEnv)
    (hname : String) (hid : le.HolderIdentity = "")
    (hh : env.hostname = .ok hname) :
    resolveIdentity le env = .ok { le with HolderIdentity := hname } := by
  unfold resolveIdentity
  rw [if_pos hid, hh]

theorem buildElector_fields (le : LeaderEngine) (env : InitEnv)
    (le2 : LeaderEngine) (h : buildElector le env = .ok le2) :
    le2.HolderIdentity = le.HolderIdentity ∧
      le2.LeaseDuration = le.LeaseDuration := by
  unfold buildElector at h
  cases hne : env.newElection with
  | error e => rw [hne] at h; cases h
  | ok u => rw [hne] at h; cases h; exact ⟨rfl, rfl⟩

theorem fixLease_holder (le : LeaderEngine) (cfg : Int) :
    (fixLease le cfg).HolderIdentity = le.HolderIdentity := by
  simp only [fixLease]
  split
  · split <;> rfl
  · split <;> rfl

theorem fixLease_ne_zero (le : LeaderEngine) (cfg : Int) :
    (fixLease le cfg).LeaseDuration ≠ 0 := by
  simp only [fixLease]
  split <;> split
  · show defaultLeaderLeaseDuration ≠ 0
    decide
  · rename_i hne
    exact hne
  · show defaultLeaderLeaseDuration ≠ 0
    decide
  · rename_i hne
    exact hne

theorem fixLease_cfg_wrap_nonzero (le : LeaderEngine) (cfg : Int)
    (h : cfg ≠ 0) (hw : wrap64 (cfg * second) ≠ 0) :
    (fixLease le cfg).LeaseDuration = wrap64 (cfg * second) := by
  simp only [fixLease, if_pos h]
  split
  · rename_i h0
    exact absurd h0 hw
  · rfl

theorem fixLease_cfg_wrap_zero (le : LeaderEngine) (cfg : Int)
    (h : cfg ≠ 0) (hw : wrap64 (cfg * second) = 0) :
    (fixLease le cfg).LeaseDuration = defaultLeaderLeaseDuration := by
  simp only [fixLease, if_pos h]
  split
  · rfl
  · rename_i h0
    exact absurd hw h0

theorem fixLease_zero_default (le : LeaderEngine)
    (h : le.LeaseDuration = 0) :
    (fixLease le 0).LeaseDuration = defaultLeaderLeaseDuration := by
  simp [fixLease, h]

theorem init_ok_shape (le : LeaderEngine) (env : InitEnv)
    (le2 : LeaderEngine) (h : le.init env = .ok le2) :
    ∃ le1, resolveIdentity le env = .ok le1 ∧
      le2.HolderIdentity = le1.HolderIdentity ∧
      le2.LeaseDuration =
        (fixLease le1 env.leaderLeaseDurationCfg).LeaseDuration := by
  unfold LeaderEngine.init at h
  split at h
  · cases h
  · rename_i le1 hres
    split at h
    · cases h
    · split at h
      · rename_i e hcm
        by_cases hnf : e.isNotFound = true
        · rw [if_pos hnf] at h
          have hb := buildElector_fields _ env le2 h
          exact ⟨le1, hres, hb.1.trans (fixLease_holder le1 _), hb.2⟩
        · rw [if_neg hnf] at h
          cases h
      · have hb := buildElector_fields _ env le2 h
        exact ⟨le1, hres, hb.1.trans (fixLease_holder le1 _), hb.2⟩

theorem init_resolve_error (le : LeaderEngine) (env : InitEnv)
    (e : KubeError) (h : resolveIdentity le env = .error e) :
    le.init env = .error e := by
  unfold LeaderEngine.init
  rw [h]

/-- C7: `init` resolves an empty `HolderIdentity` to the host name and
fails the attempt when host-name lookup fails; a nonzero configured
`leader_lease_duration` overrides the lease duration with the wrapping
`int64` product `time.Duration(cfg) * time.Second`, and whenever the
resulting `LeaseDuration` is zero (either unconfigured-and-unset, or a
product that wraps to zero) it becomes the 60s default, so a successful
`init` never leaves a zero lease duration: zero is always treated as
unset, never as an immediate expiry. -/
theorem init_defaults (le : LeaderEngine) (env : InitEnv) :
    (le.HolderIdentity = "" → ∀ e, env.hostname = .error e →
      le.init env = .error e) ∧
      (le.HolderIdentity = "" → ∀ hname le2, env.hostname = .ok hname →
        le.init env = .ok le2 → le2.HolderIdentity = hname) ∧
      (env.leaderLeaseDurationCfg ≠ 0 →
        wrap64 (env.leaderLeaseDurationCfg * second) ≠ 0 →
        ∀ le2, le.init env = .ok le2 →
          le2.LeaseDuration = wrap64 (env.leaderLeaseDurationCfg * second)) ∧
      (env.leaderLeaseDurationCfg ≠ 0 →
        wrap64 (env.leaderLeaseDurationCfg * second) = 0 →
        ∀ le2, le.init env = .ok le2 →
          le2.LeaseDuration = defaultLeaderLeaseDuration) ∧
      (env.leaderLeaseDurationCfg = 0 → le.LeaseDuration = 0 →
        ∀ le2, le.init env = .ok le2 →
          le2.LeaseDuration = defaultLeaderLeaseDuration) ∧
      (∀ le2, le.init env = .ok le2 → le2.LeaseDuration ≠ 0) := by
  refine ⟨fun hid e he => ?_, fun hid hname le2 hh hok => ?_,
    fun hcfg hw le2 hok => ?_, fun hcfg hw le2 hok => ?_,
    fun hcfg hld le2 hok => ?_, fun le2 hok => ?_⟩
  · exact init_resolve_error le env e (resolveIdentity_empty_error le env e hid he)
  · obtain ⟨le1, hres, hhid, _⟩ := init_ok_shape le env le2 hok
    rw [resolveIdentity_empty_ok le env hname hid hh] at hres
    cases hres
    exact hhid
  · obtain ⟨le1, _, _, hdur⟩ := init_ok_shape le env le2 hok
    exact hdur.trans (fixLease_cfg_wrap_nonzero le1 _ hcfg hw)
  · obtain ⟨le1, _, _, hdur⟩ := init_ok_shape le env le2 hok
    exact hdur.trans (fixLease_cfg_wrap_zero le1 _ hcfg hw)
  · obtain ⟨le1, hres, _, hdur⟩ := init_ok_shape le env le2 hok
    rw [hcfg] at hdur
    refine hdur.trans (fixLease_zero_default le1 ?_)
    rw [resolveIdentity_lease le env le1 hres]
    exact hld
  · obtain ⟨le1, _, _, hdur⟩ := init_ok_shape le env le2 hok
    rw [hdur]
    exact fixLease_ne_zero le1 _

/-- Witness for C7: in `envOk` the identity resolves to `"host-1"` and the
unconfigured lease duration defaults to 60s; in `envCfg` the configured 30s
land as the in-range `int64` product; in `envWrap` the `2^55` configured
seconds wrap the product to zero, which is re-defaulted to 60s. -/
theorem init_defaults_witness :
    engineHost.HolderIdentity = "host-1" ∧
      engineHost.LeaseDuration = defaultLeaderLeaseDuration ∧
      engineCfg.LeaseDuration = wrap64 (30 * second) ∧
      engineHost.LeaseDuration = defaultLeaderLeaseDuration :=
  ⟨(init_defaults engineFresh envOk).2.1 rfl "host-1" engineHost rfl rfl,
    (init_defaults engineFresh envOk).2.2.2.2.1 rfl rfl engineHost rfl,
    (init_defaults engineFresh envCfg).2.2.1 (by decide) (by decide)
      engineCfg rfl,
    (init_defaults engineFresh envWrap).2.2.2.1 (by decide) (by decide)
      engineHost rfl⟩

/-- C8: within an attempt that has resolved its identity and obtained the
client, the ConfigMap existence probe aborts the attempt with the probe's
error for every error that is not not-found, while a not-found result is
tolerated and the attempt proceeds to construct the election state
machine. -/
theorem init_probe_policy (le : LeaderEngine) (env : InitEnv)
    (le1 : LeaderEngine) (hres : resolveIdentity le env = .ok le1)
    (hapi : env.apiClient = .ok ()) :
    (∀ e, env.configMapGet = .error e → e.isNotFound = false →
      le.init env = .error e) ∧
      (∀ e, env.configMapGet = .error e → e.isNotFound = true →
        le.init env =
          buildElector (fixLease le1 env.leaderLeaseDurationCfg) env) := by
  constructor
  · intro e hcm hnf
    simp [LeaderEngine.init, hres, hapi, hcm, hnf]
  · intro e hcm hnf
    simp [LeaderEngine.init, hres, hapi, hcm, hnf]

/-- Witness for C8: the not-found probe result in `envOk` is tolerated and
`init` proceeds to the elector construction. -/
theorem init_probe_policy_witness :
    engineFresh.init envOk =
      buildElector
        (fixLease { engineFresh with HolderIdentity := "host-1" } 0) envOk :=
  (init_probe_policy engineFresh envOk
      { engineFresh with HolderIdentity := "host-1" } rfl rfl).2
    { msg := "configmaps not found", isNotFound := true } rfl rfl

/-- C9: `GetLeaderDetails` surfaces the ConfigMap fetch error, a distinct
not-found error for a missing leader-election annotation, and the decode
error for a malformed payload, each directly and without retry, and
returns the decoded record with a nil error otherwise; the three error
kinds are pairwise distinct. -/
theorem getLeaderDetails_errors (env : LeaderDetailsEnv)
    (hapi : env.apiClient = .ok ()) :
    (∀ e, env.getConfigMap = .error e →
      GetLeaderDetails env = .error (.getError e)) ∧
      (∀ cm, env.getConfigMap = .ok cm →
        List.lookup leaderElectionRecordAnnotationKey cm.Annotations =
          none →
        GetLeaderDetails env = .error .errNotFound) ∧
      (∀ cm payload m, env.getConfigMap = .ok cm →
        List.lookup leaderElectionRecordAnnotationKey cm.Annotations =
          some payload →
        env.unmarshal payload = .error m →
        GetLeaderDetails env = .error (.decodeError m)) ∧
      (∀ cm payload led, env.getConfigMap = .ok cm →
        List.lookup leaderElectionRecordAnnotationKey cm.Annotations =
          some payload →
        env.unmarshal payload = .ok led →
        GetLeaderDetails env = .ok led) ∧
      (∀ e m, LeaderDetailsError.getError e ≠ .errNotFound ∧
        LeaderDetailsError.getError e ≠ .decodeError m ∧
        LeaderDetailsError.errNotFound ≠ .decodeError m) := by
  refine ⟨fun e hcm => ?_, fun cm hcm hlk => ?_,
    fun cm payload m hcm hlk hum => ?_,
    fun cm payload led hcm hlk hum => ?_,
    fun e m => ⟨by simp, by simp, by simp⟩⟩
  · simp [GetLeaderDetails, hapi, hcm]
  · simp [GetLeaderDetails, hapi, hcm, hlk]
  · simp [GetLeaderDetails, hapi, hcm, hlk, hum]
  · simp [GetLeaderDetails, hapi, hcm, hlk, hum]

/-- Witness for C9: the success path on `envDetails` yields the decoded
record. -/
theorem getLeaderDetails_errors_witness :
    GetLeaderDetails envDetails = .ok recLeader :=
  (getLeaderDetails_errors envDetails rfl).2.2.2.1 cmLeader "payload-1"
    recLeader rfl rfl rfl

end LeaderElection
